import Mathlib

/-!
Shallow embedding of the command-lifecycle subsystem of the ai-robot-pet
repository: the robot_commands table (database_schema.sql), the store
operations of the spec (insert, claim_pending, finish), the intake path
(frontend microphone.jsx processAudioFile / updateUserProfile plus the
backend upload-audio endpoint, which is absent from the sources and is
modelled from the spec), the poller step (pi_client is absent and is
modelled from the spec), the history projection (fetchRobotCommands in
the older Verification component), and the photo-selection and
action-name helpers of the frontend.
-/

namespace RobotPet

/-- Status column of robot_commands: CHECK (status IN
('pending', 'processing', 'completed', 'failed')). -/
inductive Status where
  | pending
  | processing
  | completed
  | failed
deriving DecidableEq

/-- The command_type column: CHECK (command_type IN ('command', 'conversation')). -/
inductive Kind where
  | command
  | conversation
deriving DecidableEq

/-- Terminal statuses: completed or failed. -/
def Status.isTerminal : Status → Bool
  | .completed => true
  | .failed => true
  | _ => false

/-- A row of the robot_commands table (database_schema.sql lines 72-86).
Timestamps are modelled as naturals; claimedAt models the updated_at
column at the moment a poller claims the row, which is what staleness of
a processing row is measured from. -/
structure Command where
  id : Nat
  userId : String
  transcription : String
  actionNumber : Int
  voiceResponse : String
  commandType : Kind
  status : Status
  errorMessage : Option String
  createdAt : Nat
  claimedAt : Option Nat
  completedAt : Option Nat
deriving DecidableEq

/-- The schema CHECK constraint on action_number:
CHECK (action_number >= 0 AND action_number <= 4). -/
def checkAction (c : Command) : Bool :=
  decide (0 ≤ c.actionNumber) && decide (c.actionNumber ≤ 4)

/-- The Command Store: the rows of robot_commands. -/
abbrev Store := List Command

/-- Store-contract failures of the spec (section 4.2). -/
inductive StoreError where
  | duplicate
  | checkViolation
  | notFound
deriving DecidableEq

/-- Modelled from the spec: insert(command) of the Command Store contract
(spec section 4.2); the Flask backend that performs the insert (app.py) is
not among the sources. Fails with DuplicateError on an id collision; the
action_number CHECK constraint of database_schema.sql rejects an
out-of-range action. -/
def insertCommand (c : Command) (s : Store) : Except StoreError Store :=
  if ∃ r ∈ s, r.id = c.id then .error .duplicate
  else if checkAction c then .ok (s ++ [c])
  else .error .checkViolation

/-- Modelled from the spec: the due predicate of claim_pending's cutoff
semantics (spec sections 4.2 and 4.3); the poller backend (pi_client.py)
and the Flask endpoints that realize it are not among the sources. A row
is due when it is pending with created_at at or before the cutoff, or
when it is processing and its claim is older than the staleness
threshold. -/
def due (threshold now : Nat) (c : Command) : Bool :=
  (decide (c.status = Status.pending) && decide (c.createdAt ≤ now)) ||
  (decide (c.status = Status.processing) &&
    (match c.claimedAt with
     | some t => decide (t + threshold < now)
     | none => false))

/-- Oldest-first order on command rows (spec section 5: oldest-first claim
policy). -/
def createdLE (a b : Command) : Prop := a.createdAt ≤ b.createdAt

instance : DecidableRel createdLE := fun a b => Nat.decLe a.createdAt b.createdAt

instance : IsTotal Command createdLE := ⟨fun a b => Nat.le_total a.createdAt b.createdAt⟩

instance : IsTrans Command createdLE := ⟨fun _ _ _ h1 h2 => Nat.le_trans h1 h2⟩

/-- Modelled from the spec: claim_pending(limit, cutoff) of the Command
Store contract (spec section 4.2), with the crash-recovery sweep of
section 4.3 folded into its cutoff semantics; the backend that realizes
it (app.py get-pending endpoint and pi_client.py) is not among the
sources. Atomically selects up to limit due rows, oldest first, and
transitions them to processing in the same operation, returning the
claimed ids. The ids selected by one claim: the due rows, oldest first,
capped at the limit. -/
def claimedIds (limit now threshold : Nat) (s : Store) : List Nat :=
  ((List.insertionSort createdLE (s.filter (due threshold now))).take
    limit).map (fun c => c.id)

/-- The claim-and-transition operation itself: the selected rows move to
processing, stamped with the claim time, in the same atomic step. -/
def claimPending (limit now threshold : Nat) (s : Store) : List Nat × Store :=
  (claimedIds limit now threshold s, s.map (fun c =>
    if c.id ∈ claimedIds limit now threshold s then
      { c with status := Status.processing, claimedAt := some now }
    else c))

/-- Outcome reported by the poller for a claimed command. -/
inductive Outcome where
  | success
  | failure (detail : String)
deriving DecidableEq

/-- Terminal update applied by finish: completed sets completed_at,
failed sets error and completed_at (spec section 4.2). -/
def applyOutcome (o : Outcome) (now : Nat) (c : Command) : Command :=
  match o with
  | .success => { c with status := Status.completed, completedAt := some now }
  | .failure d =>
      { c with status := Status.failed, errorMessage := some d, completedAt := some now }

/-- Modelled from the spec: finish(id, outcome) of the Command Store
contract (spec section 4.2); the backend that realizes it (the PUT
status endpoint of app.py) is not among the sources. Transitions a
processing row with the given id to its terminal status; fails with
NotFoundError, leaving the store unchanged, when no processing row has
that id. -/
def finish (i : Nat) (o : Outcome) (now : Nat) (s : Store) :
    Except StoreError Unit × Store :=
  if ∃ c ∈ s, c.id = i ∧ c.status = Status.processing then
    (.ok (), s.map (fun c =>
      if c.id = i ∧ c.status = Status.processing then applyOutcome o now c
      else c))
  else (.error .notFound, s)

/-- The structured decision of the Interpreter adapter (spec section 6):
action_number, voice_response, command_type. -/
structure Decision where
  actionNumber : Int
  voiceResponse : String
  commandType : Kind
deriving DecidableEq

/-- Intake-time failures of submit (spec sections 4.1 and 7). -/
inductive IntakeError where
  | transcriptionFailed
  | interpreterFailed
  | storeFailed (e : StoreError)
deriving DecidableEq

/-- An audio payload, as opaque bytes. -/
abbrev AudioBlob := List Nat

/-- The pending row constructed by intake for a decision (spec section
4.1 and the robot_commands columns). -/
def mkCommandRow (i now : Nat) (uid text : String) (d : Decision) : Command :=
  { id := i
    userId := uid
    transcription := text
    actionNumber := d.actionNumber
    voiceResponse := d.voiceResponse
    commandType := d.commandType
    status := Status.pending
    errorMessage := none
    createdAt := now
    claimedAt := none
    completedAt := none }

/-- Modelled from the spec: the upload-audio intake endpoint (spec
section 4.1; app.py is not among the sources, only its curl tests in the
testing guide). Transcribe, then interpret, then persist exactly one
pending row; any failure before the row is persisted returns the error
with the store unchanged. The transcription and interpretation
collaborators are passed in as functions. -/
def uploadAudioIntake (transcribe : AudioBlob → Except Unit String)
    (interpret : String → Except Unit Decision)
    (cmdId now : Nat) (uid : String) (audio : AudioBlob) (s : Store) :
    Except IntakeError (Decision × Nat) × Store :=
  match transcribe audio with
  | .error _ => (.error .transcriptionFailed, s)
  | .ok text =>
    match interpret text with
    | .error _ => (.error .interpreterFailed, s)
    | .ok d =>
      match insertCommand (mkCommandRow cmdId now uid text d) s with
      | .error e => (.error (.storeFailed e), s)
      | .ok s2 => (.ok (d, cmdId), s2)

/-- A row of the user_profiles table as the frontend uses it
(microphone.jsx and the older Verification component): the AI decision
fields action, response and is_command live on the profile row. -/
structure ProfileRow where
  id : Nat
  userId : String
  action : Int
  response : String
  isCommand : Bool
  createdAt : Nat
deriving DecidableEq

/-- The profileData patch built in updateUserProfile (microphone.jsx
lines 173-177): action, response and is_command from the AI result. -/
def profilePatch (d : Decision) (r : ProfileRow) : ProfileRow :=
  { r with
    action := d.actionNumber
    response := d.voiceResponse
    isCommand := decide (d.commandType = Kind.command) }

/-- updateUserProfile of microphone.jsx (lines 161-201): if the user
already has a user_profiles row, update it in place with the patch;
otherwise insert a new row (freshId and now stand for the database's
generated id and created_at defaults). -/
def updateUserProfile (uid : String) (freshId now : Nat) (d : Decision)
    (profiles : List ProfileRow) : List ProfileRow :=
  let existing := profiles.filter (fun r => r.userId == uid)
  if existing.length > 0 then
    profiles.map (fun r => if r.userId = uid then profilePatch d r else r)
  else
    profiles ++
      [profilePatch d
        { id := freshId, userId := uid, action := 0, response := ""
          isCommand := false, createdAt := now }]

/-- The two persisted tables the submission path touches: robot_commands
and user_profiles. -/
structure SystemState where
  commands : Store
  profiles : List ProfileRow
deriving DecidableEq

/-- processAudioFile of microphone.jsx (lines 111-159) together with the
backend intake it calls: on backend success the frontend runs
updateUserProfile with the AI result; on any failure nothing further is
written and the error is surfaced. -/
def processAudioFile (transcribe : AudioBlob → Except Unit String)
    (interpret : String → Except Unit Decision)
    (cmdId profileId now : Nat) (uid : String) (audio : AudioBlob)
    (st : SystemState) : Except IntakeError Decision × SystemState :=
  match uploadAudioIntake transcribe interpret cmdId now uid audio st.commands with
  | (.error e, _) => (.error e, st)
  | (.ok (d, _), cmds) =>
      (.ok d,
        { commands := cmds
          profiles := updateUserProfile uid profileId now d st.profiles })

/-- Descending order on profile-row ids, the order clause of
fetchRobotCommands (order by id, ascending false). -/
def idGE (a b : ProfileRow) : Prop := b.id ≤ a.id

instance : DecidableRel idGE := fun a b => Nat.decLe b.id a.id

instance : IsTotal ProfileRow idGE := ⟨fun a b => (Nat.le_total a.id b.id).symm⟩

instance : IsTrans ProfileRow idGE := ⟨fun _ _ _ h1 h2 => Nat.le_trans h2 h1⟩

/-- fetchRobotCommands of the older Verification component (part_001
lines 340-353): select from user_profiles where is_command is true,
ordered by id descending. Row-level security (the select policy of
database_schema.sql) restricts the visible rows to the caller's own, so
the table is first filtered to the caller's user_id. -/
def fetchRobotCommands (uid : String) (table : List ProfileRow) : List ProfileRow :=
  List.insertionSort idGE
    ((table.filter (fun r => r.userId == uid)).filter (fun r => r.isCommand))

/-- Modelled from the spec: one poller step for a claimed command (spec
section 4.3 steps 2 and 3; pi_client.py is not among the sources). A
conversation-kind command is finished completed with no actuator call; a
command-kind one dispatches its action to the actuator and finishes
completed or failed by the actuator outcome. Returns the updated store
and the list of actions dispatched to the actuator. -/
def processClaimed (execute : Int → Except String Unit) (now : Nat)
    (c : Command) (s : Store) : Store × List Int :=
  match c.commandType with
  | .conversation => ((finish c.id Outcome.success now s).2, [])
  | .command =>
    match execute c.actionNumber with
    | .ok _ => ((finish c.id Outcome.success now s).2, [c.actionNumber])
    | .error d => ((finish c.id (Outcome.failure d) now s).2, [c.actionNumber])

/-- The operations that mutate the Command Store (spec section 4.2). -/
inductive StoreOp where
  | ins (c : Command)
  | claim (limit now threshold : Nat)
  | fin (i : Nat) (o : Outcome) (now : Nat)

/-- The store after one operation; a failed insert or finish leaves the
store unchanged. -/
def applyOp (op : StoreOp) (s : Store) : Store :=
  match op with
  | .ins c =>
    match insertCommand c s with
    | .ok s2 => s2
    | .error _ => s
  | .claim l n t => (claimPending l n t s).2
  | .fin i o n => (finish i o n s).2

/-- The store after a sequence of operations. -/
def applyOps (ops : List StoreOp) (s : Store) : Store :=
  ops.foldl (fun s op => applyOp op s) s

/-- Every row with the given id is terminal, and such a row exists. -/
def terminalLocked (i : Nat) (s : Store) : Prop :=
  (∃ c ∈ s, c.id = i) ∧ ∀ c ∈ s, c.id = i → c.status.isTerminal = true

/-- The photo-selection state of the Verification page
(verification.jsx): the selected files, the photocount display, and the
message line. -/
structure VerifState where
  selectedFiles : List String
  photocount : Nat
  message : String
deriving DecidableEq

/-- handleFileChange of verification.jsx (lines 35-50): clear the
message, keep at most the first 3 chosen files, and set photocount to
the kept length. -/
def handleFileChange (files : List String) (s : VerifState) : VerifState :=
  let limited := files.take 3
  { s with message := "", selectedFiles := limited, photocount := limited.length }

/-- The Clear button of verification.jsx (line 117): empty the selection
and reset photocount to 0. -/
def clearSelection (s : VerifState) : VerifState :=
  { s with selectedFiles := [], photocount := 0 }

/-- The actionNames table of the history view (part_001 line 675). -/
def actionNames : List String :=
  ["stay still", "move forward", "move backward", "turn left", "turn right"]

/-- JavaScript array indexing with an integer index: out-of-range or
negative indices give undefined (none). -/
def jsIndex (xs : List String) (a : Int) : Option String :=
  if 0 ≤ a then xs.get? a.toNat else none

/-- The action-to-name lookup of the history view (part_001 line 676):
actionNames[cmd.action] with a fall-through to the string
"unknown action" when the lookup is undefined or empty. -/
def actionName (a : Int) : String :=
  match jsIndex actionNames a with
  | some s => if s = "" then "unknown action" else s
  | none => "unknown action"

/-- A transcription collaborator that always succeeds with a fixed text. -/
def transcribeGo : AudioBlob → Except Unit String := fun _ => .ok "go forward"

/-- A transcription collaborator that always fails. -/
def transcribeFail : AudioBlob → Except Unit String := fun _ => .error ()

/-- An interpreter collaborator returning the move-forward decision of
end-to-end scenario A of the spec. -/
def interpretGo : String → Except Unit Decision :=
  fun _ =>
    .ok { actionNumber := 1, voiceResponse := "Moving forward now."
          commandType := Kind.command }

/-- An interpreter collaborator that always fails. -/
def interpretFail : String → Except Unit Decision := fun _ => .error ()

/-- An actuator that always succeeds. -/
def executeOk : Int → Except String Unit := fun _ => .ok ()

/-- A pre-existing user_profiles row for user u1. -/
def oldProfile : ProfileRow :=
  { id := 7, userId := "u1", action := 0, response := "Hi"
    isCommand := false, createdAt := 50 }

/-- A system state with an empty command store and one existing profile row. -/
def st0 : SystemState := { commands := [], profiles := [oldProfile] }

/-- A command row in the history table created at time 10 with id 1. -/
def historyRowA : ProfileRow :=
  { id := 1, userId := "u1", action := 1, response := "a"
    isCommand := true, createdAt := 10 }

/-- A command row in the history table created earlier (time 5) but with
the larger id 2; ids of the source are random UUIDs, so id order and
creation order are independent. -/
def historyRowB : ProfileRow :=
  { id := 2, userId := "u1", action := 2, response := "b"
    isCommand := true, createdAt := 5 }

/-- A concrete user_profiles table for the history claims. -/
def historyTable : List ProfileRow := [historyRowA, historyRowB]

/-- A pending command row, id 101, created at time 10. -/
def pendingRow1 : Command :=
  mkCommandRow 101 10 "u1" "go forward"
    { actionNumber := 1, voiceResponse := "Moving forward now."
      commandType := Kind.command }

/-- A pending command row, id 102, created at time 20. -/
def pendingRow2 : Command :=
  mkCommandRow 102 20 "u1" "go backward"
    { actionNumber := 2, voiceResponse := "Moving backward now."
      commandType := Kind.command }

/-- A row stuck in processing since its claim at time 10. -/
def processingRow : Command :=
  { pendingRow1 with id := 201, status := Status.processing, claimedAt := some 10 }

/-- A claimed conversation-kind row with a non-zero action value. -/
def conversationRow : Command :=
  { mkCommandRow 301 10 "u1" "hello"
      { actionNumber := 3, voiceResponse := "Hi there!"
        commandType := Kind.conversation } with
    status := Status.processing, claimedAt := some 20 }

/-- A row already in the terminal status completed. -/
def completedRow : Command :=
  { pendingRow1 with id := 401, status := Status.completed, completedAt := some 30 }

lemma due_iff {thr now : Nat} {c : Command} :
    due thr now c = true ↔
      (c.status = Status.pending ∧ c.createdAt ≤ now) ∨
      (c.status = Status.processing ∧ ∃ t, c.claimedAt = some t ∧ t + thr < now) := by
  cases h : c.claimedAt <;> simp [due, h]

lemma terminal_not_due {thr now : Nat} {c : Command}
    (h : c.status.isTerminal = true) : due thr now c = false := by
  rw [Bool.eq_false_iff]
  intro hdue
  rcases due_iff.mp hdue with ⟨hp, _⟩ | ⟨hp, _⟩ <;> rw [hp] at h <;>
    simp [Status.isTerminal] at h

lemma claimed_ids_sound {limit now thr : Nat} {s : Store} {x : Nat}
    (hx : x ∈ claimedIds limit now thr s) :
    ∃ c ∈ s, due thr now c = true ∧ c.id = x := by
  simp only [claimedIds, List.mem_map] at hx
  obtain ⟨c, hc, rfl⟩ := hx
  have hc2 := (List.mem_insertionSort createdLE).mp (List.take_subset _ _ hc)
  rw [List.mem_filter] at hc2
  exact ⟨c, hc2.1, hc2.2, rfl⟩

lemma claimedIds_complete {limit now thr : Nat} {s : Store}
    (hcap : (s.filter (due thr now)).length ≤ limit)
    {c : Command} (hc : c ∈ s) (hdue : due thr now c = true) :
    c.id ∈ claimedIds limit now thr s := by
  unfold claimedIds
  have hlen : (List.insertionSort createdLE (s.filter (due thr now))).length =
      (s.filter (due thr now)).length :=
    (List.perm_insertionSort _ _).length_eq
  rw [List.take_of_length_le (by rw [hlen]; exact hcap)]
  exact List.mem_map.mpr
    ⟨c, (List.mem_insertionSort createdLE).mpr (List.mem_filter.mpr ⟨hc, hdue⟩), rfl⟩

lemma claimed_row_updated {limit now thr : Nat} {s : Store} {c2 : Command}
    (h2 : c2 ∈ (claimPending limit now thr s).2)
    (hx : c2.id ∈ claimedIds limit now thr s) :
    c2.status = Status.processing ∧ c2.claimedAt = some now := by
  simp only [claimPending, List.mem_map] at h2
  obtain ⟨c, hc, heq⟩ := h2
  by_cases hin : c.id ∈ claimedIds limit now thr s
  · rw [if_pos hin] at heq
    subst heq
    exact ⟨rfl, rfl⟩
  · rw [if_neg hin] at heq
    subst heq
    exact absurd hx hin

lemma finish_eq_pos {i : Nat} {o : Outcome} {now : Nat} {s : Store}
    (hex : ∃ c ∈ s, c.id = i ∧ c.status = Status.processing) :
    finish i o now s =
      (.ok (), s.map (fun c =>
        if c.id = i ∧ c.status = Status.processing then applyOutcome o now c
        else c)) := by
  unfold finish
  rw [if_pos hex]

lemma finish_eq_neg {i : Nat} {o : Outcome} {now : Nat} {s : Store}
    (hex : ¬ ∃ c ∈ s, c.id = i ∧ c.status = Status.processing) :
    finish i o now s = (.error .notFound, s) := by
  unfold finish
  rw [if_neg hex]

lemma finish_ok (o : Outcome) (now : Nat) {i : Nat} {s : Store} {c : Command}
    (hc : c ∈ s) (hid : c.id = i) (hst : c.status = Status.processing) :
    (finish i o now s).1 = Except.ok () ∧
      applyOutcome o now c ∈ (finish i o now s).2 := by
  rw [finish_eq_pos ⟨c, hc, hid, hst⟩]
  exact ⟨rfl, List.mem_map.mpr ⟨c, hc, by rw [if_pos ⟨hid, hst⟩]⟩⟩

lemma applyOutcome_terminal (o : Outcome) (now : Nat) (c : Command) :
    (applyOutcome o now c).status.isTerminal = true ∧
      (applyOutcome o now c).completedAt = some now ∧
      (applyOutcome o now c).id = c.id := by
  cases o <;> simp [applyOutcome, Status.isTerminal]

lemma finish_not_processing {i : Nat} {o : Outcome} {now : Nat} {s : Store} :
    ∀ r ∈ (finish i o now s).2, r.id = i → ¬ r.status = Status.processing := by
  intro r hr hrid
  by_cases hex : ∃ c ∈ s, c.id = i ∧ c.status = Status.processing
  · rw [finish_eq_pos hex] at hr
    simp only [List.mem_map] at hr
    obtain ⟨c, hc, heq⟩ := hr
    by_cases hcond : c.id = i ∧ c.status = Status.processing
    · rw [if_pos hcond] at heq
      subst heq
      cases o <;> simp [applyOutcome]
    · rw [if_neg hcond] at heq
      subst heq
      intro hcontra
      exact hcond ⟨hrid, hcontra⟩
  · rw [finish_eq_neg hex] at hr
    intro hcontra
    exact hex ⟨r, hr, hrid, hcontra⟩

/-- C9: handleFileChange keeps at most the first 3 of the chosen files;
afterwards photocount equals the length of selectedFiles and both are at
most 3; the Clear button resets the selection to empty and the count to
0. -/
theorem file_selection_bounded (files : List String) (s s2 : VerifState) :
    (handleFileChange files s).selectedFiles = files.take 3 ∧
    (handleFileChange files s).photocount =
      (handleFileChange files s).selectedFiles.length ∧
    (handleFileChange files s).photocount ≤ 3 ∧
    (handleFileChange files s).selectedFiles.length ≤ 3 ∧
    (clearSelection s2).selectedFiles = [] ∧
    (clearSelection s2).photocount = 0 := by
  refine ⟨rfl, rfl, ?_, ?_, rfl, rfl⟩ <;>
    simp [handleFileChange, List.length_take]

/-- C10: the action-to-name lookup of the history view is total: actions
0 through 4 map to their fixed names, and any integer action outside that
range renders as the string unknown action. -/
theorem action_name_total :
    actionName 0 = "stay still" ∧
    actionName 1 = "move forward" ∧
    actionName 2 = "move backward" ∧
    actionName 3 = "turn left" ∧
    actionName 4 = "turn right" ∧
    ∀ a : Int, a < 0 ∨ 4 < a → actionName a = "unknown action" := by
  refine ⟨rfl, rfl, rfl, rfl, rfl, ?_⟩
  intro a ha
  unfold actionName jsIndex
  rcases ha with ha | ha
  · rw [if_neg (by omega)]
  · rw [if_pos (by omega)]
    have h5 : actionNames.length ≤ a.toNat := by
      simp only [actionNames, List.length]
      omega
    rw [List.get?_eq_none.mpr h5]

/-- Witness for the C10 theorem: an out-of-range action renders as
unknown action. -/
theorem action_name_total_witness : actionName 7 = "unknown action" :=
  action_name_total.2.2.2.2.2 7 (Or.inr (by norm_num))

/-- C3: a submission whose transcription or interpretation fails persists
zero rows and surfaces the error to the caller: the system state comes
back unchanged together with the corresponding intake error. -/
theorem submit_failure_no_rows (transcribe : AudioBlob → Except Unit String)
    (interpret : String → Except Unit Decision)
    (cmdId profileId now : Nat) (uid : String) (audio : AudioBlob)
    (st : SystemState) :
    (transcribe audio = .error () →
      processAudioFile transcribe interpret cmdId profileId now uid audio st =
        (.error IntakeError.transcriptionFailed, st)) ∧
    (∀ text, transcribe audio = .ok text → interpret text = .error () →
      processAudioFile transcribe interpret cmdId profileId now uid audio st =
        (.error IntakeError.interpreterFailed, st)) := by
  constructor
  · intro h
    simp [processAudioFile, uploadAudioIntake, h]
  · intro text h1 h2
    simp [processAudioFile, uploadAudioIntake, h1, h2]

/-- Witness for the C3 theorem: a failing transcription and a failing
interpretation on concrete inputs each leave the concrete state
unchanged. -/
theorem submit_failure_no_rows_witness :
    processAudioFile transcribeFail interpretGo 1 2 3 "u1" [0] st0 =
      (.error IntakeError.transcriptionFailed, st0) ∧
    processAudioFile transcribeGo interpretFail 1 2 3 "u1" [0] st0 =
      (.error IntakeError.interpreterFailed, st0) :=
  ⟨(submit_failure_no_rows transcribeFail interpretGo 1 2 3 "u1" [0] st0).1 rfl,
   (submit_failure_no_rows transcribeGo interpretFail 1 2 3 "u1" [0] st0).2
     "go forward" rfl rfl⟩

/-- C5: a claimed conversation-kind command is finished completed by the
poller step with no actuator call, whatever its action value. -/
theorem conversation_no_actuator (execute : Int → Except String Unit)
    (now : Nat) (c : Command) (s : Store)
    (hk : c.commandType = Kind.conversation) (hc : c ∈ s)
    (hst : c.status = Status.processing) :
    (processClaimed execute now c s).2 = [] ∧
    ∃ c2 ∈ (processClaimed execute now c s).1,
      c2.id = c.id ∧ c2.status = Status.completed ∧
        c2.completedAt = some now := by
  constructor
  · simp [processClaimed, hk]
  · have h2 := (finish_ok Outcome.success now hc rfl hst).2
    simp only [processClaimed, hk]
    exact ⟨applyOutcome Outcome.success now c, h2, rfl, rfl, rfl⟩

/-- Witness for the C5 theorem: a concrete claimed conversation row with
action 3 is finished completed with no actuator call. -/
theorem conversation_no_actuator_witness :
    (processClaimed executeOk 99 conversationRow [conversationRow]).2 = [] ∧
    ∃ c2 ∈ (processClaimed executeOk 99 conversationRow [conversationRow]).1,
      c2.id = conversationRow.id ∧ c2.status = Status.completed ∧
        c2.completedAt = some 99 :=
  conversation_no_actuator executeOk 99 conversationRow [conversationRow] rfl
    (by decide) rfl

/-- C8: the first finish on a processing row succeeds, stamping the
terminal status and completed_at; a second finish on the same id raises
NotFoundError and leaves the store, hence completed_at, unchanged. -/
theorem finish_idempotent (i now now2 : Nat) (o o2 : Outcome) (s : Store)
    (c : Command) (hc : c ∈ s) (hid : c.id = i)
    (hst : c.status = Status.processing) :
    (finish i o now s).1 = Except.ok () ∧
    applyOutcome o now c ∈ (finish i o now s).2 ∧
    (applyOutcome o now c).completedAt = some now ∧
    (applyOutcome o now c).status.isTerminal = true ∧
    finish i o2 now2 (finish i o now s).2 =
      (.error StoreError.notFound, (finish i o now s).2) := by
  obtain ⟨h1, h2⟩ := finish_ok o now hc hid hst
  obtain ⟨ht, hca, _⟩ := applyOutcome_terminal o now c
  refine ⟨h1, h2, hca, ht, ?_⟩
  apply finish_eq_neg
  rintro ⟨r, hr, hrid, hrst⟩
  exact finish_not_processing r hr hrid hrst

/-- Witness for the C8 theorem on a concrete processing row: the first
finish succeeds and the second raises NotFoundError. -/
theorem finish_idempotent_witness :
    (finish 201 Outcome.success 40 [processingRow]).1 = Except.ok () ∧
    applyOutcome Outcome.success 40 processingRow ∈
      (finish 201 Outcome.success 40 [processingRow]).2 ∧
    (applyOutcome Outcome.success 40 processingRow).completedAt = some 40 ∧
    (applyOutcome Outcome.success 40 processingRow).status.isTerminal = true ∧
    finish 201 Outcome.success 50 (finish 201 Outcome.success 40 [processingRow]).2 =
      (.error StoreError.notFound, (finish 201 Outcome.success 40 [processingRow]).2) :=
  finish_idempotent 201 40 50 Outcome.success Outcome.success [processingRow]
    processingRow (by decide) rfl rfl

/-- C1: the id sets returned by one claim_pending call and by a second
call on the resulting store are disjoint whenever the second call comes
before the first call's claims can go stale; the claim is a single
atomic select-and-transition, so any pair of concurrent callers is
equivalent to such a sequence, and no command id is returned twice. -/
theorem claim_pending_disjoint (l1 l2 t1 t2 thr : Nat) (s : Store)
    (h : t2 ≤ t1 + thr) :
    List.Disjoint (claimPending l1 t1 thr s).1
      (claimPending l2 t2 thr (claimPending l1 t1 thr s).2).1 := by
  intro x hx1 hx2
  obtain ⟨c2, hc2mem, hdue, hcid⟩ := claimed_ids_sound hx2
  have hx1b : c2.id ∈ claimedIds l1 t1 thr s := by rw [hcid]; exact hx1
  obtain ⟨hst, hcl⟩ := claimed_row_updated hc2mem hx1b
  rcases due_iff.mp hdue with ⟨hp, _⟩ | ⟨_, t, hts, hlt⟩
  · rw [hst] at hp
    exact absurd hp (by decide)
  · rw [hcl] at hts
    injection hts with hts
    omega

/-- Witness for the C1 theorem: two racing claims over a concrete store
of two pending rows, the second within the staleness window of the
first, return disjoint id sets. -/
theorem claim_pending_disjoint_witness :
    (32 : Nat) ≤ 30 + 5 ∧
    List.Disjoint (claimPending 1 30 5 [pendingRow1, pendingRow2]).1
      (claimPending 1 32 5 (claimPending 1 30 5 [pendingRow1, pendingRow2]).2).1 :=
  ⟨by norm_num,
   claim_pending_disjoint 1 1 30 32 5 [pendingRow1, pendingRow2] (by norm_num)⟩

/-- C6: a row left in processing longer than the staleness threshold
with no finish call is reclaimed by a subsequent claim_pending call with
capacity for the due rows: its id is returned and the row is claimed
anew at the new time, so no row stays stuck after a poller crash. -/
theorem claim_pending_reclaims (limit now thr t0 : Nat) (s : Store)
    (c : Command) (hc : c ∈ s) (hst : c.status = Status.processing)
    (hcl : c.claimedAt = some t0) (hstale : t0 + thr < now)
    (hcap : (s.filter (due thr now)).length ≤ limit) :
    c.id ∈ (claimPending limit now thr s).1 ∧
    ∀ c2 ∈ (claimPending limit now thr s).2, c2.id = c.id →
      c2.status = Status.processing ∧ c2.claimedAt = some now := by
  have hdue : due thr now c = true := due_iff.mpr (Or.inr ⟨hst, t0, hcl, hstale⟩)
  have hid : c.id ∈ claimedIds limit now thr s := claimedIds_complete hcap hc hdue
  refine ⟨hid, ?_⟩
  intro c2 h2 hcid
  exact claimed_row_updated h2 (by rw [hcid]; exact hid)

/-- Witness for the C6 theorem: a concrete row stuck in processing since
time 10 is reclaimed by a claim at time 100 with threshold 5. -/
theorem claim_pending_reclaims_witness :
    processingRow.id ∈ (claimPending 2 100 5 [processingRow]).1 ∧
    ∀ c2 ∈ (claimPending 2 100 5 [processingRow]).2, c2.id = processingRow.id →
      c2.status = Status.processing ∧ c2.claimedAt = some 100 :=
  claim_pending_reclaims 2 100 5 10 [processingRow] processingRow (by decide)
    rfl rfl (by norm_num) (by decide)

lemma insertCommand_ok_parts {c : Command} {s s2 : Store}
    (h : insertCommand c s = .ok s2) :
    (¬ ∃ r ∈ s, r.id = c.id) ∧ checkAction c = true ∧ s2 = s ++ [c] := by
  unfold insertCommand at h
  by_cases hdup : ∃ r ∈ s, r.id = c.id
  · rw [if_pos hdup] at h
    simp at h
  · rw [if_neg hdup] at h
    by_cases hchk : checkAction c = true
    · rw [if_pos hchk] at h
      injection h with h
      exact ⟨hdup, hchk, h.symm⟩
    · rw [if_neg hchk] at h
      simp at h

lemma terminalLocked_applyOp {i : Nat} {s : Store} (op : StoreOp)
    (h : terminalLocked i s) : terminalLocked i (applyOp op s) := by
  obtain ⟨⟨cw, hcw, hcwid⟩, hall⟩ := h
  cases op with
  | ins c =>
    cases hins : insertCommand c s with
    | error e =>
      simp only [applyOp, hins]
      exact ⟨⟨cw, hcw, hcwid⟩, hall⟩
    | ok s2 =>
      obtain ⟨hdup, _, hs2⟩ := insertCommand_ok_parts hins
      simp only [applyOp, hins, hs2]
      constructor
      · exact ⟨cw, List.mem_append_left _ hcw, hcwid⟩
      · intro r hr hrid
        rcases List.mem_append.mp hr with hr | hr
        · exact hall r hr hrid
        · rw [List.mem_singleton] at hr
          subst hr
          exact absurd ⟨cw, hcw, by rw [hcwid, hrid]⟩ hdup
  | claim l n t =>
    have hnotin : i ∉ claimedIds l n t s := by
      intro hin
      obtain ⟨c3, hc3, hdue, hc3id⟩ := claimed_ids_sound hin
      rw [terminal_not_due (hall c3 hc3 hc3id)] at hdue
      exact Bool.noConfusion hdue
    simp only [applyOp, claimPending]
    constructor
    · refine ⟨_, List.mem_map_of_mem _ hcw, ?_⟩
      simp [hcwid, hnotin]
    · intro r hr hrid
      obtain ⟨c0, hc0, heq⟩ := List.mem_map.mp hr
      by_cases h0 : c0.id ∈ claimedIds l n t s
      · rw [if_pos h0] at heq
        subst heq
        exact absurd (hrid ▸ h0) hnotin
      · rw [if_neg h0] at heq
        subst heq
        exact hall c0 hc0 hrid
  | fin i2 o n =>
    by_cases hex : ∃ c0 ∈ s, c0.id = i2 ∧ c0.status = Status.processing
    · have hsnd : (finish i2 o n s).2 = s.map (fun c =>
          if c.id = i2 ∧ c.status = Status.processing then applyOutcome o n c
          else c) := by
        rw [finish_eq_pos hex]
      simp only [applyOp, hsnd]
      constructor
      · refine ⟨_, List.mem_map_of_mem _ hcw, ?_⟩
        by_cases h0 : cw.id = i2 ∧ cw.status = Status.processing
        · rw [if_pos h0, (applyOutcome_terminal o n cw).2.2, hcwid]
        · rw [if_neg h0, hcwid]
      · intro r hr hrid
        obtain ⟨c0, hc0, heq⟩ := List.mem_map.mp hr
        by_cases h0 : c0.id = i2 ∧ c0.status = Status.processing
        · rw [if_pos h0] at heq
          subst heq
          exact (applyOutcome_terminal o n c0).1
        · rw [if_neg h0] at heq
          subst heq
          exact hall c0 hc0 hrid
    · have hsnd : (finish i2 o n s).2 = s := by rw [finish_eq_neg hex]
      simp only [applyOp, hsnd]
      exact ⟨⟨cw, hcw, hcwid⟩, hall⟩

/-- C4: once every row carrying a given id has reached a terminal status
(completed or failed), no sequence of store operations (inserts, claims,
finishes) ever moves a row with that id back to a non-terminal status:
the status field only moves forward. -/
theorem status_terminal_locked (i : Nat) (ops : List StoreOp) (s : Store)
    (h : terminalLocked i s) : terminalLocked i (applyOps ops s) := by
  induction ops generalizing s with
  | nil => exact h
  | cons op ops ih => exact ih (applyOp op s) (terminalLocked_applyOp op h)

/-- Witness for the C4 theorem: a concrete completed row stays terminal
under an insert, a claim and a finish. -/
theorem status_terminal_locked_witness :
    terminalLocked 401 (applyOps
      [StoreOp.ins pendingRow1, StoreOp.claim 5 100 5,
       StoreOp.fin 401 Outcome.success 110] [completedRow]) :=
  status_terminal_locked 401
    [StoreOp.ins pendingRow1, StoreOp.claim 5 100 5,
     StoreOp.fin 401 Outcome.success 110] [completedRow]
    ⟨⟨completedRow, by decide, by decide⟩, by decide⟩

lemma updateUserProfile_mem_of_ne {uid : String} {fid now : Nat}
    {d : Decision} {profiles : List ProfileRow} {r : ProfileRow}
    (hr : r ∈ profiles) (hne : r.userId ≠ uid) :
    r ∈ updateUserProfile uid fid now d profiles := by
  simp only [updateUserProfile]
  by_cases hlen : (profiles.filter (fun r => r.userId == uid)).length > 0
  · rw [if_pos hlen]
    exact List.mem_map.mpr ⟨r, hr, by rw [if_neg hne]⟩
  · rw [if_neg hlen]
    exact List.mem_append_left _ hr

lemma updateUserProfile_patched {uid : String} {fid now : Nat}
    {d : Decision} {profiles : List ProfileRow} {r : ProfileRow}
    (hr : r ∈ profiles) (heq : r.userId = uid) :
    profilePatch d r ∈ updateUserProfile uid fid now d profiles := by
  have hmem : r ∈ profiles.filter (fun r => r.userId == uid) :=
    List.mem_filter.mpr ⟨hr, by simp [heq]⟩
  simp only [updateUserProfile]
  rw [if_pos (List.length_pos_of_mem hmem)]
  exact List.mem_map.mpr ⟨r, hr, by rw [if_pos heq]⟩

/-- C2 amended: a successful submission persists exactly one new Command
row, appended with status pending and action in the range 0 to 4, and
overwrites no robot_commands row; it additionally upserts the
submitter's user_profiles row in place with the decision's action,
response and is_command fields (overwriting the existing profile row
when there is one), while profile rows of other users are untouched. -/
theorem submit_persists_one_row (transcribe : AudioBlob → Except Unit String)
    (interpret : String → Except Unit Decision)
    (cmdId profileId now : Nat) (uid : String) (audio : AudioBlob)
    (st st2 : SystemState) (d : Decision)
    (h : processAudioFile transcribe interpret cmdId profileId now uid audio st =
      (.ok d, st2)) :
    (∃ row, st2.commands = st.commands ++ [row] ∧
      row.status = Status.pending ∧ 0 ≤ row.actionNumber ∧
      row.actionNumber ≤ 4) ∧
    (∀ r ∈ st.profiles, r.userId ≠ uid → r ∈ st2.profiles) ∧
    (∀ r ∈ st.profiles, r.userId = uid → profilePatch d r ∈ st2.profiles) := by
  unfold processAudioFile uploadAudioIntake at h
  cases htr : transcribe audio with
  | error e =>
    rw [htr] at h
    simp at h
  | ok text =>
    rw [htr] at h
    dsimp only at h
    cases hit : interpret text with
    | error e =>
      rw [hit] at h
      simp at h
    | ok d0 =>
      rw [hit] at h
      dsimp only at h
      cases hins : insertCommand (mkCommandRow cmdId now uid text d0) st.commands with
      | error e =>
        rw [hins] at h
        simp at h
      | ok s2 =>
        rw [hins] at h
        dsimp only at h
        have h1 := congrArg Prod.fst h
        have h2 := congrArg Prod.snd h
        simp only at h1 h2
        injection h1 with h1
        subst h1
        subst h2
        obtain ⟨hdup, hchk, hs2⟩ := insertCommand_ok_parts hins
        simp only [checkAction, Bool.and_eq_true, decide_eq_true_eq] at hchk
        refine ⟨⟨mkCommandRow cmdId now uid text d0, hs2, rfl, hchk.1, hchk.2⟩, ?_, ?_⟩
        · intro r hr hne
          exact updateUserProfile_mem_of_ne hr hne
        · intro r hr heq
          exact updateUserProfile_patched hr heq

/-- Witness for the amended C2 theorem on a concrete successful
submission. -/
theorem submit_persists_one_row_witness :
    (∃ row,
      (processAudioFile transcribeGo interpretGo 10 11 100 "u1" [0] st0).2.commands =
        st0.commands ++ [row] ∧
      row.status = Status.pending ∧ 0 ≤ row.actionNumber ∧
      row.actionNumber ≤ 4) ∧
    (∀ r ∈ st0.profiles, r.userId ≠ "u1" →
      r ∈ (processAudioFile transcribeGo interpretGo 10 11 100 "u1" [0] st0).2.profiles) ∧
    (∀ r ∈ st0.profiles, r.userId = "u1" →
      profilePatch
          { actionNumber := 1, voiceResponse := "Moving forward now."
            commandType := Kind.command } r ∈
        (processAudioFile transcribeGo interpretGo 10 11 100 "u1" [0] st0).2.profiles) :=
  submit_persists_one_row transcribeGo interpretGo 10 11 100 "u1" [0] st0 _ _ rfl

/-- C2 as stated is false on the code: a successful submission for a
user who already has a user_profiles row overwrites that existing row in
place (the update branch of updateUserProfile), so the pre-submission
row is gone from the store afterwards. -/
theorem submit_overwrites_profile_cex :
    (processAudioFile transcribeGo interpretGo 10 11 100 "u1" [0] st0).1 =
      Except.ok
        { actionNumber := 1, voiceResponse := "Moving forward now."
          commandType := Kind.command } ∧
    oldProfile ∈ st0.profiles ∧
    oldProfile ∉
      (processAudioFile transcribeGo interpretGo 10 11 100 "u1" [0] st0).2.profiles :=
  ⟨rfl, by decide, by decide⟩

/-- C7 amended: the history projection returns only the caller's own
command rows of the table, unmodified, ordered by id descending; since
ids are random UUIDs, this order need not be newest-first by creation
time. -/
theorem fetch_commands_projection (uid : String) (table : List ProfileRow) :
    (∀ r ∈ fetchRobotCommands uid table,
      r.userId = uid ∧ r.isCommand = true ∧ r ∈ table) ∧
    List.Sorted idGE (fetchRobotCommands uid table) := by
  constructor
  · intro r hr
    unfold fetchRobotCommands at hr
    have hr2 := (List.mem_insertionSort idGE).mp hr
    rw [List.mem_filter] at hr2
    obtain ⟨hr3, hcmd⟩ := hr2
    rw [List.mem_filter] at hr3
    obtain ⟨hmem, huid⟩ := hr3
    exact ⟨by simpa using huid, hcmd, hmem⟩
  · exact List.sorted_insertionSort idGE _

/-- Witness for the amended C7 theorem on a concrete table and row. -/
theorem fetch_commands_projection_witness :
    (historyRowA.userId = "u1" ∧ historyRowA.isCommand = true ∧
      historyRowA ∈ historyTable) ∧
    List.Sorted idGE (fetchRobotCommands "u1" historyTable) :=
  ⟨(fetch_commands_projection "u1" historyTable).1 historyRowA (by decide),
   (fetch_commands_projection "u1" historyTable).2⟩

/-- C7 as stated is false on the code: fetchRobotCommands orders by id
descending, not by creation time, and on a concrete table where id order
disagrees with creation order the result puts the row created at time 5
before the row created at time 10. -/
theorem fetch_commands_not_newest_first_cex :
    ¬ List.Sorted (fun a b : ProfileRow => b.createdAt ≤ a.createdAt)
      (fetchRobotCommands "u1" historyTable) := by
  decide

end RobotPet
